import Mathlib

/-!
# Verification of the Componion video-ingestion pipeline

Shallow embedding, in Lean 4, of the core of the Componion backend
(`backend/services/VideoPreprocessor.py`, `backend/api/routes.py`,
`backend/youtube/scripts/YoutubeExtractor.py`, `backend/core/models.py`),
together with theorems settling the specification claims about it.

Strings from the Python side are modelled as `List Char`; external,
effectful calls (Gemini, TMDB, yt-dlp, the database) are modelled by
explicit outcome parameters, while the pure control flow, parsing and
bookkeeping logic is translated statement by statement from the source.
-/

set_option maxRecDepth 4000

namespace Componion

/-! ## Python string primitives -/

/-- The whitespace characters recognised by Python's `str.strip()`
(restricted to the ASCII range, which is all the pipeline ever feeds it). -/
def isPySpace (c : Char) : Bool :=
  c = ' ' || c = '\t' || c = '\n' || c = '\x0d' || c = '\x0b' || c = '\x0c'

/-- Python `str.strip()` on a character list. -/
def pyStrip (cs : List Char) : List Char :=
  ((cs.dropWhile isPySpace).reverse.dropWhile isPySpace).reverse

/-- Python `str.split(sep)` for a single-character separator. -/
def pySplitChar (c : Char) : List Char → List (List Char)
  | [] => [[]]
  | x :: xs =>
    match pySplitChar c xs with
    | [] => [[x]]
    | y :: ys => if x = c then [] :: y :: ys else (x :: y) :: ys

/-- Numeric value of a non-empty all-digit character list. -/
def digitsVal (ds : List Char) : Nat :=
  ds.foldl (fun a c => a * 10 + (c.toNat - 48)) 0

/-- Python `int(s)` on the strings this code base feeds it: optional
surrounding whitespace, an optional sign, then ASCII digits.  `none`
models the `ValueError` raised on anything else. -/
def pyInt? (cs : List Char) : Option Int :=
  let t := pyStrip cs
  match t with
  | '+' :: ds => if ds ≠ [] ∧ ds.all Char.isDigit then some (digitsVal ds) else none
  | '-' :: ds => if ds ≠ [] ∧ ds.all Char.isDigit then some (-(digitsVal ds : Int)) else none
  | ds => if ds ≠ [] ∧ ds.all Char.isDigit then some (digitsVal ds) else none

/-! ## Transcript normalizer (`VideoPreprocessor._parse_transcript_to_json`) -/

/-- One entry of the parsed transcript JSON array. -/
structure TranscriptEntry where
  timestamp : List Char
  seconds : Int
  text : List Char
  deriving Repr, DecidableEq

/-- `seconds = int(time_parts[0]) * 60 + int(time_parts[1])` after
`timestamp.split(':')`; `none` models the `IndexError`/`ValueError`
raised when there are fewer than two parts or a part is not an integer. -/
def timestampSeconds? (ts : List Char) : Option Int :=
  match pySplitChar ':' ts with
  | p0 :: p1 :: _ =>
    match pyInt? p0, pyInt? p1 with
    | some a, some b => some (a * 60 + b)
    | _, _ => none
  | _ => none

/-- The guard `line and line.startswith('[') and ']' in line` on an
already-stripped line. -/
def isBracketLine (s : List Char) : Bool :=
  s ≠ [] && s.head? = some '[' && s.contains ']'

/-- Not the closing bracket (the slicing `line[1:timestamp_end]` stops at
the first `]`). -/
def notRBracket (c : Char) : Bool := c ≠ ']'

/-- Body of the loop of `_parse_transcript_to_json` for one stripped line
that passed `isBracketLine`: slice out the bracketed timestamp, convert it
to seconds, keep the trailing text.  `none` models an exception inside the
loop body. -/
def bracketLineEntry? (s : List Char) : Option TranscriptEntry :=
  let rest := s.tail
  let timestamp := rest.takeWhile notRBracket
  let text := pyStrip (rest.dropWhile notRBracket).tail
  (timestampSeconds? timestamp).map fun secs => ⟨timestamp, secs, text⟩

/-- `VideoPreprocessor._parse_transcript_to_json`, over the lines of the
transcript file.  The `try` block wraps the whole loop, so an exception on
one line (a bracketed timestamp that is not `int:int`) returns the entries
accumulated so far and silently discards every later line. -/
def parseTranscriptToJson : List (List Char) → List TranscriptEntry
  | [] => []
  | l :: rest =>
    let s := pyStrip l
    if isBracketLine s then
      match bracketLineEntry? s with
      | some e => e :: parseTranscriptToJson rest
      | none => []
    else
      parseTranscriptToJson rest

example : parseTranscriptToJson ["[01:05] hello".data] =
    [⟨"01:05".data, 65, "hello".data⟩] := by decide

example : parseTranscriptToJson ["no timestamp".data, "[00:10]  hi ".data] =
    [⟨"00:10".data, 10, "hi".data⟩] := by decide

/-! ## Frame annotator (`VideoPreprocessor.describe_screenshots`) -/

/-- `f"{minutes:02d}"`: zero-padded two-digit decimal rendering. -/
def pad2 (n : Nat) : List Char :=
  if n < 10 then '0' :: Nat.toDigits 10 n else Nat.toDigits 10 n

/-- `f"{minutes:02d}:{seconds_remainder:02d}"` for a seconds value. -/
def fmtMMSS (secs : Nat) : List Char :=
  pad2 (secs / 60) ++ ':' :: pad2 (secs % 60)

/-- `re.search(r'_(\d{4})\.jpg$', filename)`: the four digits right before
the `.jpg` suffix, preceded by an underscore. -/
def filenameSeconds? (fname : List Char) : Option Nat :=
  match fname.reverse with
  | 'g' :: 'p' :: 'j' :: '.' :: d0 :: d1 :: d2 :: d3 :: '_' :: _ =>
    if (d0.isDigit && d1.isDigit && d2.isDigit && d3.isDigit) then
      some (digitsVal [d3, d2, d1, d0])
    else none
  | _ => none

/-- One element of the JSON array parsed out of the Gemini response:
an object carrying a `"description"` field, a value for which
`"description" in x` is `False`, or a value (such as a number) for which
that membership test raises `TypeError`. -/
inductive JElem where
  | withDesc (d : List Char)
  | noDesc
  | raising
  deriving Repr, DecidableEq

/-- Which branch the response parsing in `describe_screenshots` takes:
`jsonArr` when `re.search(r'\[.*\]', response, re.DOTALL)` finds a
substring that `json.loads` accepts as an array, `splitParts` when the
regex finds nothing (with the non-empty chunks `re.split` produced), and
`parseFailure` when the substring exists but `json.loads` raises. -/
inductive DescribeParse where
  | jsonArr (elems : List JElem)
  | splitParts (parts : List (List Char))
  | parseFailure
  deriving Repr, DecidableEq

/-- `true` exactly on the branches taken when the response contains no
valid JSON array. -/
def isNoJsonBranch : DescribeParse → Bool
  | .jsonArr _ => false
  | .splitParts _ => true
  | .parseFailure => true

/-- One row of the `descriptions` array built by `describe_screenshots`. -/
structure DescEntry where
  timestamp : List Char
  seconds : Nat
  filename : List Char
  description : List Char
  deriving Repr, DecidableEq

/-- Entry whose seconds come from the filename when the filename regex
matches, else from the 10-second-interval fallback `i * 10`. -/
def mkEntryTimestamped (i : Nat) (fname desc : List Char) : DescEntry :=
  let secs := (filenameSeconds? fname).getD (i * 10)
  ⟨fmtMMSS secs, secs, fname, desc⟩

/-- Entry of the ultimate-fallback loop, which never looks at the
filename for the timestamp: seconds are always `i * 10`. -/
def mkEntryFallback (i : Nat) (fname desc : List Char) : DescEntry :=
  ⟨fmtMMSS (i * 10), i * 10, fname, desc⟩

/-- `f"Description not available for image {i+1}"`. -/
def placeholderImage (n : Nat) : List Char :=
  "Description not available for image ".data ++ Nat.toDigits 10 n

/-- The `except` handler of the parsing block: one
`"Could not process description for {filename}"` entry per screenshot. -/
def ultimateFallback (files : List (List Char)) : List DescEntry :=
  files.enum.map fun p => mkEntryFallback p.1 p.2 ("Could not process description for ".data ++ p.2)

/-- The per-file loop of the JSON branch.  When element `i` of the parsed
array makes `"description" in parsed_descriptions[i]` raise, the entries
built so far stay in the `descriptions` list and the `except` handler
appends a full ultimate-fallback set for every file. -/
def jsonBranchLoop (elems : List JElem) (allFiles : List (List Char)) :
    Nat → List (List Char) → List DescEntry
  | _, [] => []
  | i, f :: fs =>
    match elems.get? i with
    | some .raising => ultimateFallback allFiles
    | some (.withDesc d) => mkEntryTimestamped i f d :: jsonBranchLoop elems allFiles (i + 1) fs
    | some .noDesc =>
      mkEntryTimestamped i f (placeholderImage (i + 1)) :: jsonBranchLoop elems allFiles (i + 1) fs
    | none =>
      mkEntryTimestamped i f (placeholderImage (i + 1)) :: jsonBranchLoop elems allFiles (i + 1) fs

/-- The fallback branch: chunk `i` of the split response, or a
per-filename placeholder when the chunks run out. -/
def splitBranchEntries (parts : List (List Char)) (files : List (List Char)) : List DescEntry :=
  files.enum.map fun p =>
    mkEntryTimestamped p.1 p.2
      (match parts.get? p.1 with
       | some chunk => chunk
       | none => "Description not available for ".data ++ p.2)

/-- The `descriptions` list assembled by `describe_screenshots` from the
sorted screenshot files and the Gemini response, by branch. -/
def describeEntries (branch : DescribeParse) (files : List (List Char)) : List DescEntry :=
  match branch with
  | .jsonArr elems => jsonBranchLoop elems files 0 files
  | .splitParts parts => splitBranchEntries parts files
  | .parseFailure => ultimateFallback files

/-- `describe_screenshots`: empty result when no screenshot files match
the glob, or when the Gemini call itself raises (outer `except`);
otherwise the parsed `descriptions` list. -/
def describe_screenshots (files : List (List Char)) (callRaises : Bool)
    (branch : DescribeParse) : List DescEntry :=
  if files = [] then []
  else if callRaises then []
  else describeEntries branch files

/-! ## Frame extraction (`YoutubeExtractor.extract_and_save_screenshot`)

The stream is modelled by the outcomes the code branches on: whether
`extract_info` succeeds, whether it yields a playable URL, whether
`cv2.VideoCapture` opens, the (integral) frame rate, and the number of
frames `cap.read()` delivers before the stream ends. -/

/-- `extract_and_save_screenshot(interval)`: returns the success flag and
the number of screenshot files written.  A frame is written whenever
`screenshot_count % int(fps * interval) == 0`. -/
def extract_and_save_screenshot (infoOk urlFound opened : Bool)
    (fps numFrames interval : Nat) : Bool × Nat :=
  if !infoOk then (false, 0)
  else if !urlFound then (false, 0)
  else if !opened then (false, 0)
  else if fps = 0 then (false, 0)
  else
    let si := fps * interval
    (true, ((List.range numFrames).filter (fun k => k % si = 0)).length)

/-! ## Video-id extraction (`YoutubeExtractor.extract_video_id_from_url`)

A direct executable model of
`(?:https?:\/\/)?(?:www\.)?(?:youtube\.com\/(?:[^\/\n\s]+\/\S+\/|(?:v|e(?:mbed)?)\/|\S*?[?&]v=)|youtu\.be\/)([a-zA-Z0-9_-]{11})`
under `re.search`: a matcher maps a suffix to the list of possible
remainders after the non-capturing prelude, in the engine's backtracking
preference order, and the capturing group takes the next 11 characters. -/

/-- The character class `[a-zA-Z0-9_-]` of the capturing group. -/
def isIdChar (c : Char) : Bool := c.isAlphanum || c = '_' || c = '-'

/-- `\S` (restricted to the ASCII whitespace the URLs here contain). -/
def isNonSpace (c : Char) : Bool := !(isPySpace c)

/-- `[^\/\n\s]`. -/
def notSlashSpace (c : Char) : Bool := !(c = '/' || isPySpace c)

/-- A matcher takes the input suffix and yields the candidate remainders
after the matched part, in backtracking preference order. -/
abbrev Matcher := List Char → List (List Char)

/-- Literal text. -/
def litM (p : List Char) : Matcher := fun s =>
  if p.isPrefixOf s then [s.drop p.length] else []

/-- Sequential composition. -/
def seqM (f g : Matcher) : Matcher := fun s => (f s).flatMap g

/-- Greedy `?`: with the piece first, then without. -/
def optM (f : Matcher) : Matcher := fun s => f s ++ [s]

/-- Alternation, left branch preferred. -/
def altM (f g : Matcher) : Matcher := fun s => f s ++ g s

/-- Greedy `+` over a character class: longest consumption first. -/
def plusGreedyM (p : Char → Bool) : Matcher := fun s =>
  let n := (s.takeWhile p).length
  (List.range n).map fun k => s.drop (n - k)

/-- Lazy `*?` over a character class: shortest consumption first. -/
def starLazyM (p : Char → Bool) : Matcher := fun s =>
  (List.range ((s.takeWhile p).length + 1)).map fun k => s.drop k

/-- `(?:https?:\/\/)?`. -/
def schemeM : Matcher :=
  optM (seqM (litM "http".data) (seqM (optM (litM "s".data)) (litM "://".data)))

/-- `(?:www\.)?`. -/
def wwwM : Matcher := optM (litM "www.".data)

/-- `[^\/\n\s]+\/\S+\/`. -/
def pathAlt1 : Matcher :=
  seqM (plusGreedyM notSlashSpace)
    (seqM (litM "/".data) (seqM (plusGreedyM isNonSpace) (litM "/".data)))

/-- `(?:v|e(?:mbed)?)\/`. -/
def pathAlt2 : Matcher :=
  seqM (altM (litM "v".data) (seqM (litM "e".data) (optM (litM "mbed".data)))) (litM "/".data)

/-- `\S*?[?&]v=`. -/
def pathAlt3 : Matcher :=
  seqM (starLazyM isNonSpace) (seqM (altM (litM "?".data) (litM "&".data)) (litM "v=".data))

/-- `youtube\.com\/(...)|youtu\.be\/`. -/
def hostM : Matcher :=
  altM (seqM (litM "youtube.com/".data) (altM pathAlt1 (altM pathAlt2 pathAlt3)))
    (litM "youtu.be/".data)

/-- The whole non-capturing prelude before the video-id group. -/
def preludeAllM : Matcher := seqM schemeM (seqM wwwM hostM)

/-- The capturing group `([a-zA-Z0-9_-]{11})` at a remainder. -/
def idAt? (r : List Char) : Option (List Char) :=
  if (r.take 11).length = 11 ∧ (r.take 11).all isIdChar then some (r.take 11) else none

/-- One `re.search` attempt anchored at this suffix. -/
def tryFrom (s : List Char) : Option (List Char) :=
  (preludeAllM s).findSome? idAt?

/-- `re.search`: try every start position, leftmost first. -/
def searchVideoId : List Char → Option (List Char)
  | [] => none
  | s@(_ :: t) =>
    match tryFrom s with
    | some v => some v
    | none => searchVideoId t

/-- `extract_video_id_from_url`: `match.group(1)` on success, `None`
otherwise. -/
def extract_video_id_from_url (url : List Char) : Option (List Char) :=
  searchVideoId url

example : extract_video_id_from_url "https://www.youtube.com/watch?v=nBpPe9UweWs".data =
    some "nBpPe9UweWs".data := by decide

example : extract_video_id_from_url "youtu.be/abc-def_hij9".data =
    some "abc-def_hij".data := by decide

example : extract_video_id_from_url "https://example.com/watch?v=nBpPe9UweWs".data = none := by
  decide

/-! ## Show identification with TMDB
(`VideoPreprocessor._process_show_identification_with_tmdb`)

`json.loads` on the brace-extracted substring is an oracle parameter
(`jloads`); the brace extraction `re.search(r'\{.*\}', response,
re.DOTALL)` itself is executable.  The TMDB client calls are modelled by
their outcomes. -/

/-- `re.search(r'\{.*\}', response, re.DOTALL)`: the substring from the
first `{` through the last `}` after it, if any. -/
def braceExtract (cs : List Char) : Option (List Char) :=
  let l := cs.dropWhile (fun c => c ≠ '{')
  match l with
  | [] => none
  | _ :: rest =>
    if rest.contains '}' then
      some ((l.reverse.dropWhile (fun c => c ≠ '}')).reverse)
    else none

/-- The fields the code reads out of the parsed identification object
(`show_data.get(...)`, with `get("type", "Other")` already applied by the
oracle).  Values of shapes that would make `show_type.lower()` raise are
outside the model. -/
structure ShowData where
  showType : List Char
  title : Option (List Char)
  season : Option Int
  episode : Option Int
  deriving Repr, DecidableEq

/-- The hard-coded default structure substituted when no JSON object can
be read out of the response. -/
def defaultShowData : ShowData := ⟨"Other".data, none, none, none⟩

/-- A row of `tv_show_info` as written by `TVShowInfo.create`. -/
structure TVShowRow where
  video_url : List Char
  show_type : List Char
  title : Option (List Char)
  season : Option Int
  episode : Option Int
  tmdb_id : Option Int
  tmdb_data : Option (List Char)
  deriving Repr, DecidableEq

/-- Outcomes of the TMDB client calls. -/
structure TmdbEnv where
  /-- `TMDBAPI()` construction or `search_and_get_best_match` raising
  (caught by the surrounding `except`). -/
  searchRaises : Bool
  /-- The best-match result: its `id` field and its serialised payload. -/
  searchResult : Option (Option Int × List Char)
  /-- `get_tv_episode_details` outcome: the combined payload to store if
  episode details are found, `none` on no result or a raise. -/
  episodeResult : Option (List Char)

/-- Python truthiness of an optional string (`None` and `""` are falsy). -/
def optStrTruthy : Option (List Char) → Bool
  | none => false
  | some s => s ≠ []

/-- Python truthiness of an optional integer (`None` and `0` are falsy). -/
def optIntTruthy : Option Int → Bool
  | none => false
  | some v => v ≠ 0

/-- Python `str.lower()` (ASCII). -/
def pyLower (cs : List Char) : List Char := cs.map Char.toLower

/-- Python `needle in haystack` on strings: contiguous-substring test. -/
def containsSub (needle : List Char) : List Char → Bool
  | [] => needle.isEmpty
  | h :: t => needle.isPrefixOf (h :: t) || containsSub needle t

/-- `_process_show_identification_with_tmdb`: returns the boolean result
together with the `tv_show_info` row written, if any. -/
def processShowIdentificationWithTmdb (videoUrl response : List Char)
    (jloads : List Char → Option ShowData) (env : TmdbEnv) :
    Bool × Option TVShowRow :=
  if response = [] then (false, none)
  else
    let showData :=
      match braceExtract response with
      | some t =>
        match jloads t with
        | some d => d
        | none => defaultShowData
      | none => defaultShowData
    let tmdbPair : Option Int × Option (List Char) :=
      if optStrTruthy showData.title
          && (pyLower showData.showType = "tv show".data
              || pyLower showData.showType = "movie".data) then
        if env.searchRaises then (none, none)
        else
          match env.searchResult with
          | some (tid, payload) =>
            let contentTypeTv := containsSub "tv".data (pyLower showData.showType)
            if contentTypeTv && optIntTruthy showData.season
                && optIntTruthy showData.episode && optIntTruthy tid then
              match env.episodeResult with
              | some combined => (tid, some combined)
              | none => (tid, some payload)
            else (tid, some payload)
          | none => (none, none)
      else (none, none)
    (true, some ⟨videoUrl, showData.showType, showData.title, showData.season,
      showData.episode, tmdbPair.1, tmdbPair.2⟩)

/-! ## Persistence (`core/models.py`)

The `video_analysis` and `video_transcript` tables are modelled as row
lists; `ON CONFLICT ... DO UPDATE` upserts become find-and-replace. -/

/-- A row of the legacy `video_analysis` table. -/
structure AnalysisRow where
  video_id : List Char
  model_type : List Char
  model_output : List Char
  deriving Repr, DecidableEq

/-- A row of the normalized `video_transcript` table. -/
structure TranscriptRow where
  video_id : List Char
  content_type : List Char
  timestamp_seconds : Int
  timestamp_text : List Char
  text_content : List Char
  deriving Repr, DecidableEq

/-- One item of the JSON array handed to
`VideoTranscript.create_from_json_array` (`item.get(...)` fields). -/
structure TranscriptItem where
  timestamp : Option (List Char)
  seconds : Option Int
  text : Option (List Char)
  description : Option (List Char)
  deriving Repr, DecidableEq

/-- `item.get('text') or item.get('description', '')`. -/
def itemTextContent (it : TranscriptItem) : List Char :=
  match it.text with
  | some t => if t = [] then it.description.getD [] else t
  | none => it.description.getD []

/-- The `video_transcript` row built for one item. -/
def itemRow (vid ct : List Char) (it : TranscriptItem) : TranscriptRow :=
  ⟨vid, ct, it.seconds.getD 0, (it.timestamp.getD "00:00".data), itemTextContent it⟩

/-- Key equality on `(video_id, content_type, timestamp_seconds)`, the
uniqueness constraint of `video_transcript`. -/
def sameKey (r q : TranscriptRow) : Bool :=
  r.video_id = q.video_id && r.content_type = q.content_type
    && r.timestamp_seconds = q.timestamp_seconds

/-- The `WHERE video_id = ... AND content_type = ...` condition of the
initial `DELETE`. -/
def pairP (vid ct : List Char) (r : TranscriptRow) : Bool :=
  r.video_id = vid && r.content_type = ct

/-- Membership of a row in one `(video_id, content_type,
timestamp_seconds)` uniqueness-constraint key. -/
def keyP (vid ct : List Char) (s : Int) (r : TranscriptRow) : Bool :=
  r.video_id = vid && r.content_type = ct && r.timestamp_seconds = s

/-- `INSERT ... ON CONFLICT (video_id, content_type, timestamp_seconds)
DO UPDATE SET timestamp_text = ..., text_content = ...`. -/
def upsertTranscriptRow (store : List TranscriptRow) (row : TranscriptRow) :
    List TranscriptRow :=
  if store.any (sameKey row) then
    store.map fun q => if sameKey row q then row else q
  else store ++ [row]

/-- `VideoTranscript.create_from_json_array`: delete every row of the
`(video_id, content_type)` pair, then upsert one row per item in order. -/
def create_from_json_array (store : List TranscriptRow) (vid ct : List Char)
    (items : List TranscriptItem) : List TranscriptRow :=
  let cleared := store.filter fun r => !(pairP vid ct r)
  items.foldl (fun st it => upsertTranscriptRow st (itemRow vid ct it)) cleared

/-- `INSERT ... ON CONFLICT (video_id, model_type) DO UPDATE` on the
legacy `video_analysis` table. -/
def upsertAnalysisRow (store : List AnalysisRow) (row : AnalysisRow) : List AnalysisRow :=
  if store.any (fun q => q.video_id = row.video_id && q.model_type = row.model_type) then
    store.map fun q =>
      if q.video_id = row.video_id && q.model_type = row.model_type then row else q
  else store ++ [row]

/-- `VideoAnalysis.create`: upsert the legacy row and, for the
`transcript` / `image_descriptions` model types, rebuild the normalized
per-timestamp store from the (already parsed) JSON payload. -/
def videoAnalysisCreate (legacy : List AnalysisRow) (norm : List TranscriptRow)
    (vid mt output : List Char) (items : List TranscriptItem) :
    List AnalysisRow × List TranscriptRow :=
  let legacy' := upsertAnalysisRow legacy ⟨vid, mt, output⟩
  if mt = "transcript".data ∨ mt = "image_descriptions".data then
    let ct := if mt = "transcript".data then "transcript".data else "description".data
    (legacy', create_from_json_array norm vid ct items)
  else (legacy', norm)

/-- `VideoAnalysis.get_by_video_url`: empty for a falsy URL, otherwise
every row whose `video_id` equals it. -/
def videoAnalysisGetByUrl (legacy : List AnalysisRow) (url : List Char) : List AnalysisRow :=
  if url = [] then [] else legacy.filter fun r => r.video_id = url

/-! ## Ingestion request handling (`routes.process_video`) -/

/-- The pipeline-run status values. -/
inductive RunStatus where
  | pending
  | processing
  | completed
  | failed
  deriving Repr, DecidableEq

/-- The `video_processing_status` row fields the request handler reads. -/
structure StatusRow where
  video_url : List Char
  status : RunStatus
  progress : Option Nat
  deriving Repr, DecidableEq

/-- The immediate HTTP response of `POST /video/process`. -/
inductive ProcessVideoReply where
  /-- `{'message': 'Video already processed', 'status': 'completed'}` -/
  | alreadyProcessed
  /-- `{'message': 'Video processing already in progress', ...}` -/
  | alreadyInProgress (status : RunStatus) (progress : Option Nat)
  /-- `{'message': 'Video processing started', 'status': 'pending'}` -/
  | started
  deriving Repr, DecidableEq

/-- `routes.process_video` up to spawning the worker: the reply, whether
a new status row was created, and whether the background pipeline was
started. -/
def process_video (legacy : List AnalysisRow) (statusOf : Option StatusRow)
    (url : List Char) : ProcessVideoReply × Bool × Bool :=
  if videoAnalysisGetByUrl legacy url ≠ [] then (.alreadyProcessed, false, false)
  else
    match statusOf with
    | some ps =>
      if ps.status = .pending ∨ ps.status = .processing then
        (.alreadyInProgress ps.status ps.progress, false, false)
      else (.started, true, true)
    | none => (.started, true, true)

/-! ## The ingestion pipeline
(`VideoPreprocessor.preprocess_youtube_url` and
`routes.process_video_background`)

External effects are modelled by their outcomes in a `PipeEnv`; the
control flow, the `processed_components` / `errors` bookkeeping, the
progress callbacks and the cleanup call are translated block by block.
The analysis-record payloads are studied separately (transcript parsing,
normalized-store rewriting); for the run-status claims only the model
types of the records written matter, tracked in `writes`. -/

/-- An observable action of `preprocess_youtube_url`: a
`progress_callback(n, ...)` invocation or the `_cleanup_generated_files`
call. -/
inductive PEvent where
  | progress (n : Nat)
  | cleanup
  deriving Repr, DecidableEq

/-- Outcomes of the external calls one pipeline run makes. -/
structure PipeEnv where
  /-- The YouTube URL handed to `preprocess_youtube_url`. -/
  url : List Char
  /-- `GeminiAPI()` construction succeeding. -/
  geminiInitOk : Bool
  /-- `extract_and_save_transcript()` result. -/
  transcriptOk : Bool
  /-- `extract_and_save_audio()` result (consulted only on transcript
  failure). -/
  audioOk : Bool
  /-- `gemini_api.audio2text` raising (caught by the stage-1 `except`). -/
  audioRaises : Bool
  /-- `extract_and_save_screenshot(interval=10)` result. -/
  screenshotOk : Bool
  /-- The sorted basenames the screenshot glob finds. -/
  screenshotFiles : List (List Char)
  /-- `gemini_api.images2text` raising inside `describe_screenshots`. -/
  describeRaises : Bool
  /-- How the description response parses (see `DescribeParse`). -/
  describeBranch : DescribeParse
  /-- `gemini_api.images2text` raising inside `_process_screenshots`. -/
  identifyRaises : Bool
  /-- The raw identification response text. -/
  identifyResponse : List Char
  /-- `json.loads` on the brace-extracted identification substring. -/
  jloads : List Char → Option ShowData
  /-- TMDB call outcomes. -/
  tmdb : TmdbEnv

/-- What one stage block contributes: `processed_components` entries,
`errors` entries, model types of `VideoAnalysis.create` calls, events. -/
structure StageOut where
  comps : List (List Char)
  errors : List (List Char)
  writes : List (List Char)
  events : List PEvent
  deriving Repr, DecidableEq

/-- Block 1 of `preprocess_youtube_url` (transcript, with audio
fallback).  Both the native-transcript path and the audio path write a
`transcript` analysis record; an exception from `audio2text` is caught at
the block boundary and only logged. -/
def stage1 (env : PipeEnv) : StageOut :=
  if env.transcriptOk then
    ⟨["transcript".data], [], ["transcript".data], [.progress 45, .progress 55]⟩
  else if env.audioOk then
    if env.audioRaises then
      ⟨[], ["Transcript/audio processing error".data], [], [.progress 45]⟩
    else
      ⟨["audio_transcription".data], [], ["transcript".data], [.progress 45]⟩
  else
    ⟨[], ["Failed to extract transcript or audio".data], [], [.progress 45]⟩

/-- Progress callbacks issued inside `describe_screenshots`: 80 before
the Gemini call, 85 after it returns (so not when it raises), nothing
when the glob finds no files. -/
def describeCallEvents (env : PipeEnv) : List PEvent :=
  if env.screenshotFiles = [] then []
  else if env.describeRaises then [.progress 80]
  else [.progress 80, .progress 85]

/-- Progress callbacks issued inside `_process_screenshots` for the
identification request: again 80 and 85. -/
def identifyCallEvents (env : PipeEnv) : List PEvent :=
  if env.screenshotFiles = [] then []
  else if env.identifyRaises then [.progress 80]
  else [.progress 80, .progress 85]

/-- The `response` field `identify_show_from_screenshots` comes back
with; `[]` models the falsy `None` produced when there are no files or
the call raised. -/
def identifyResp (env : PipeEnv) : List Char :=
  if env.screenshotFiles = [] ∨ env.identifyRaises then [] else env.identifyResponse

/-- Block 2 of `preprocess_youtube_url` (screenshots, descriptions,
identification, TMDB enrichment). -/
def stage2 (env : PipeEnv) : StageOut :=
  if env.screenshotOk then
    let descs := describe_screenshots env.screenshotFiles env.describeRaises env.describeBranch
    let resp := identifyResp env
    let ev0 := [PEvent.progress 65, .progress 75] ++ describeCallEvents env
      ++ identifyCallEvents env
    let dPart : StageOut :=
      if descs ≠ [] then
        ⟨["image_descriptions".data], [], ["image_descriptions".data], [.progress 88]⟩
      else ⟨[], [], [], []⟩
    let iPart : StageOut :=
      if resp ≠ [] then
        let tmdbRes := processShowIdentificationWithTmdb env.url resp env.jloads env.tmdb
        if tmdbRes.1 then
          ⟨["show_identification".data, "tmdb_enrichment".data], [],
            ["show_identification".data], [.progress 90, .progress 92]⟩
        else
          ⟨["show_identification".data], [], ["show_identification".data],
            [.progress 90, .progress 92]⟩
      else ⟨[], [], [], []⟩
    let errs :=
      if descs = [] ∧ resp = [] then ["No screenshots were successfully processed".data]
      else []
    ⟨dPart.comps ++ iPart.comps, errs, dPart.writes ++ iPart.writes,
      ev0 ++ dPart.events ++ iPart.events⟩
  else
    ⟨[], ["Failed to extract screenshots".data], [], [.progress 65]⟩

/-- The overall result of one `preprocess_youtube_url` run. -/
structure PreprocessOut where
  success : Bool
  components : List (List Char)
  errors : List (List Char)
  writes : List (List Char)
  events : List PEvent
  deriving Repr, DecidableEq

/-- `preprocess_youtube_url`: Gemini init, video-id extraction, the two
stage blocks, the success decision (`if processed_components:`), and the
cleanup call made before the successful return. -/
def preprocess_youtube_url (env : PipeEnv) : PreprocessOut :=
  if !env.geminiInitOk then ⟨false, [], [], [], []⟩
  else
    match extract_video_id_from_url env.url with
    | none => ⟨false, [], [], [], [.progress 35]⟩
    | some _vid =>
      let s1 := stage1 env
      let s2 := stage2 env
      let comps := s1.comps ++ s2.comps
      let errs := s1.errors ++ s2.errors
      let writes := s1.writes ++ s2.writes
      let evs := [PEvent.progress 35, .progress 40] ++ s1.events ++ s2.events
      if comps ≠ [] then ⟨true, comps, errs, writes, evs ++ [.progress 95, .cleanup]⟩
      else ⟨false, comps, errs, writes, evs⟩

/-- An observable action of the background worker: a status-store write
(`VideoProcessingStatus.update_status`) or the file cleanup. -/
inductive Event where
  | upd (st : RunStatus) (progress : Option Nat)
  | cleanupFiles
  deriving Repr, DecidableEq

/-- How the `update_progress` closure in `routes.process_video_background`
turns a pipeline event into a status-store write. -/
def peventToEvent : PEvent → Event
  | .progress n => .upd .processing (some n)
  | .cleanup => .cleanupFiles

/-- `routes.process_video_background`: the fixed 10/20/30 updates, the
pipeline's own events, then the terminal write — `completed` with
progress 100 on success, `failed` without touching progress otherwise. -/
def process_video_background (env : PipeEnv) : List Event :=
  let pre := preprocess_youtube_url env
  [Event.upd .processing (some 10), .upd .processing (some 20), .upd .processing (some 30)]
    ++ pre.events.map peventToEvent
    ++ [if pre.success then Event.upd .completed (some 100) else .upd .failed none]

/-- The progress values a poller can observe, in write order (terminal
`failed` writes carry no progress). -/
def progressTrace (evs : List Event) : List Nat :=
  evs.filterMap fun e =>
    match e with
    | .upd _ p => p
    | .cleanupFiles => none

/-! ## Claim C4 — transcript normalizer -/

/-- What the loop of `_parse_transcript_to_json` would do to one line in
isolation: `none` for a dropped or aborting line. -/
def lineEntry? (l : List Char) : Option TranscriptEntry :=
  let s := pyStrip l
  if isBracketLine s then bracketLineEntry? s else none

theorem takeWhile_append_disc (p : Char → Bool) :
    ∀ (xs : List Char) (y : Char) (ys : List Char), (∀ c ∈ xs, p c = true) → p y = false →
      (xs ++ y :: ys).takeWhile p = xs ∧ (xs ++ y :: ys).dropWhile p = y :: ys := by
  intro xs
  induction xs with
  | nil =>
    intro y ys _ hy
    simp [List.takeWhile, List.dropWhile, hy]
  | cons x xs ih =>
    intro y ys h hy
    have hx : p x = true := h x (by simp)
    have := ih y ys (fun c hc => h c (by simp [hc])) hy
    simp [List.takeWhile_cons, List.dropWhile_cons, hx, this.1, this.2]

/--
C4 (amended).  Lines without a bracketed timestamp are silently dropped,
and a well-formed line `[MM:SS] text` is mapped to
`{timestamp "MM:SS", seconds MM*60+SS, text}` (second conjunct) —
**provided** every line that starts with `[` and contains `]` carries a
parseable `int:int` timestamp.  Under that proviso the parser behaves as
the per-line map `lineEntry?` (first conjunct); without it, the first
offending line aborts the loop and discards all later lines
(see the counterexample).
-/
theorem c4_transcript_parser_amended :
    (∀ lines : List (List Char),
      (∀ l ∈ lines, isBracketLine (pyStrip l) = true → (bracketLineEntry? (pyStrip l)).isSome) →
      parseTranscriptToJson lines = lines.filterMap lineEntry?) ∧
    (∀ (l ts rest : List Char) (secs : Int),
      pyStrip l = '[' :: (ts ++ ']' :: rest) →
      (∀ c ∈ ts, c ≠ ']') →
      timestampSeconds? ts = some secs →
      lineEntry? l = some ⟨ts, secs, pyStrip rest⟩) := by
  constructor
  · intro lines h
    induction lines with
    | nil => rfl
    | cons l rest ih =>
      have hrest : ∀ x ∈ rest, isBracketLine (pyStrip x) = true →
          (bracketLineEntry? (pyStrip x)).isSome := fun x hx => h x (by simp [hx])
      by_cases hb : isBracketLine (pyStrip l) = true
      · rcases Option.isSome_iff_exists.mp (h l (by simp) hb) with ⟨e, he⟩
        simp [parseTranscriptToJson, lineEntry?, hb, he, ih hrest]
      · simp [parseTranscriptToJson, lineEntry?, hb, ih hrest]
  · intro l ts rest secs hs hts hsecs
    have hbr : isBracketLine (pyStrip l) = true := by
      simp [isBracketLine, hs, List.contains_eq_any_beq]
    have htw := takeWhile_append_disc notRBracket ts ']' rest
      (fun c hc => by simp [notRBracket, hts c hc]) (by simp [notRBracket])
    simp only [lineEntry?, hbr, if_pos]
    simp [bracketLineEntry?, hs, htw.1, htw.2, hsecs]

/-- C4 witness: a transcript file with one malformed and one well-formed
line, satisfying the proviso, parses as the per-line map does, which
keeps exactly the record `{01:05, 65, hello}`. -/
theorem c4_witness :
    parseTranscriptToJson ["x".data, "[01:05] hello".data] =
        List.filterMap lineEntry? ["x".data, "[01:05] hello".data] ∧
      List.filterMap lineEntry? ["x".data, "[01:05] hello".data] =
        [⟨"01:05".data, 65, "hello".data⟩] :=
  ⟨c4_transcript_parser_amended.1 _ (by decide), by decide⟩

/-- C4 counterexample to the claim as stated: in a file whose first line
`[abc] x` has a bracketed but non-numeric timestamp, the well-formed line
`[01:05] hello` is **not** mapped to its record — the exception raised by
`int('abc')` aborts the whole loop, so every later line is lost, not just
malformed ones. -/
theorem c4_counterexample :
    (⟨"01:05".data, (65 : Int), "hello".data⟩ : TranscriptEntry) ∉
      parseTranscriptToJson ["[abc] x".data, "[01:05] hello".data] := by
  decide

/-! ## Claim C5 — per-frame descriptions degrade, never shrink -/

/--
C5.  For a non-empty screenshot list and a Gemini response containing no
valid JSON array (the `splitParts` fallback branch or the
`json.loads`-failure branch), `describe_screenshots` still returns
exactly one description entry per input frame — placeholders allowed,
never fewer — and the sub-stage yields a result rather than failing.
-/
theorem c5_describe_one_entry_per_frame (files : List (List Char)) (branch : DescribeParse)
    (hne : files ≠ []) (hnj : isNoJsonBranch branch = true) :
    (describe_screenshots files false branch).length = files.length := by
  cases branch with
  | jsonArr elems => simp [isNoJsonBranch] at hnj
  | splitParts parts =>
    simp [describe_screenshots, hne, describeEntries, splitBranchEntries]
  | parseFailure =>
    simp [describe_screenshots, hne, describeEntries, ultimateFallback]

/-- C5 witness: one frame, unparseable response, one placeholder entry. -/
theorem c5_witness :
    (["shot_screenshot_0000.jpg".data] : List (List Char)) ≠ [] ∧
      isNoJsonBranch .parseFailure = true ∧
      (describe_screenshots ["shot_screenshot_0000.jpg".data] false .parseFailure).length =
        (["shot_screenshot_0000.jpg".data] : List (List Char)).length :=
  ⟨by decide, by decide, c5_describe_one_entry_per_frame _ _ (by decide) (by decide)⟩

/-! ## Claim C6 — screenshot count -/

theorem range_filter_mod_length (m : Nat) (hm : 0 < m) :
    ∀ n : Nat, ((List.range n).filter (fun k => k % m = 0)).length = (n + m - 1) / m := by
  intro n
  induction n with
  | zero =>
    have h0 : (m - 1) / m = 0 := Nat.div_eq_of_lt (by omega)
    simp [h0]
  | succ n ih =>
    rw [List.range_succ, List.filter_append, List.length_append, ih]
    have hstep : (n + 1 + m - 1) / m = (n + m - 1) / m + if m ∣ n then 1 else 0 := by
      have h1 : n + 1 + m - 1 = (n + m - 1) + 1 := by omega
      have h2 : n + m - 1 + 1 = n + m := by omega
      rw [h1, Nat.succ_div, h2]
      by_cases hd : m ∣ n
      · rw [if_pos (Nat.dvd_add_self_right.mpr hd), if_pos hd]
      · rw [if_neg (fun hc => hd (Nat.dvd_add_self_right.mp hc)), if_neg hd]
    rw [hstep]
    by_cases hd : m ∣ n
    · have hmod : n % m = 0 := by
        obtain ⟨k, rfl⟩ := hd
        simp [Nat.mul_mod_right]
      simp [hd, hmod]
    · have hmod : ¬ (n % m = 0) := fun hc => hd (Nat.dvd_of_mod_eq_zero hc)
      simp [hd, hmod]

/--
C6 (amended).  With a readable stream (`extract_info` ok, a playable URL,
the capture opens) of `N` decodable frames, integral frame rate
`fps > 0` and interval `i > 0`, `extract_and_save_screenshot` returns
`true` and writes `⌈N / (fps·i)⌉` images — one at frame 0 and one each
time a new full interval begins — i.e. `⌈d/i⌉` for duration `d = N/fps`,
not the claimed `⌊d/i⌋`.  When any setup step fails, or the frame rate
reads 0, it writes nothing and returns `false`.
-/
theorem c6_extract_frames_amended (infoOk urlFound opened : Bool)
    (fps numFrames interval : Nat) (hf : 0 < fps) (hi : 0 < interval) :
    (extract_and_save_screenshot infoOk urlFound opened fps numFrames interval =
      if infoOk && urlFound && opened then
        (true, (numFrames + fps * interval - 1) / (fps * interval))
      else (false, 0)) ∧
    extract_and_save_screenshot infoOk urlFound opened 0 numFrames interval = (false, 0) := by
  have hsi : 0 < fps * interval := Nat.mul_pos hf hi
  constructor
  · cases infoOk <;> cases urlFound <;> cases opened <;>
      simp [extract_and_save_screenshot, Nat.pos_iff_ne_zero.mp hf,
        range_filter_mod_length (fps * interval) hsi]
  · cases infoOk <;> cases urlFound <;> cases opened <;>
      simp [extract_and_save_screenshot]

/-- C6 witness: a 15-frame stream at fps 1 with a 10-second interval
yields 2 screenshots, matching `⌈15/10⌉`. -/
theorem c6_witness :
    extract_and_save_screenshot true true true 1 15 10 =
        (true, (15 + 1 * 10 - 1) / (1 * 10)) ∧
      (15 + 1 * 10 - 1) / (1 * 10) = 2 :=
  ⟨by simpa using (c6_extract_frames_amended true true true 1 15 10 (by decide) (by decide)).1,
    by decide⟩

/-- C6 counterexample to the claim as stated: duration 15 s (15 frames at
fps 1), interval 10 s.  The code writes screenshots at t = 0 and t = 10,
so 2 images, while the claimed count `⌊d/i⌋ = ⌊15/10⌋` is 1. -/
theorem c6_counterexample :
    extract_and_save_screenshot true true true 1 15 10 = (true, 2) ∧ (15 : Nat) / 10 = 1 := by
  decide

/-! ## Claim C7 — identification fallback -/

/--
C7 (amended).  For every **non-empty** identification response in which
no JSON object can be read (no `{...}` substring, or `json.loads` fails
on it), `_process_show_identification_with_tmdb` substitutes the default
identity `type = "Other"`, `title = season = episode = None`, stores it,
and returns success.  An empty response, however, makes the function
return `False` without writing anything (see the counterexample), so the
claim holds only away from the empty response.
-/
theorem c7_identification_default_amended (url response : List Char)
    (jloads : List Char → Option ShowData) (env : TmdbEnv)
    (hne : response ≠ [])
    (hun : ∀ t, braceExtract response = some t → jloads t = none) :
    processShowIdentificationWithTmdb url response jloads env =
      (true, some ⟨url, "Other".data, none, none, none, none, none⟩) := by
  unfold processShowIdentificationWithTmdb
  rw [if_neg hne]
  cases hbe : braceExtract response with
  | none => simp [hbe, defaultShowData, optStrTruthy]
  | some t => simp [hbe, hun t hbe, defaultShowData, optStrTruthy]

/-- C7 witness: a response whose brace substring is not valid JSON gets
the default `Other` identity and a `True` result. -/
theorem c7_witness :
    processShowIdentificationWithTmdb "u".data "\x7bnot json\x7d".data (fun _ => none)
        ⟨false, none, none⟩ =
      (true, some ⟨"u".data, "Other".data, none, none, none, none, none⟩) :=
  c7_identification_default_amended _ _ _ _ (by decide) (fun _ _ => rfl)

/-- C7 counterexample to the claim as stated: the empty response is not
parseable as the expected JSON object, yet the function reports failure
(`False`) and substitutes nothing. -/
theorem c7_counterexample :
    processShowIdentificationWithTmdb "u".data [] (fun _ => none) ⟨false, none, none⟩ =
      (false, none) := by
  decide

/-! ## Claim C9 — video-id shape -/

theorem tryFrom_shape (s v : List Char) (h : tryFrom s = some v) :
    v.length = 11 ∧ v.all isIdChar = true := by
  obtain ⟨r, _, hid⟩ := List.exists_of_findSome?_eq_some h
  unfold idAt? at hid
  split at hid
  · next hcond =>
    cases hid
    exact hcond
  · exact absurd hid (by simp)

/--
C9.  For every input URL, `extract_video_id_from_url` returns either
`None` or a captured group that is exactly 11 characters long and drawn
from `[a-zA-Z0-9_-]` — never a string of any other length or content
(and, being a total function of the URL, it raises nothing).
-/
theorem c9_video_id_shape (url v : List Char)
    (h : extract_video_id_from_url url = some v) :
    v.length = 11 ∧ v.all isIdChar = true := by
  unfold extract_video_id_from_url at h
  induction url with
  | nil => simp [searchVideoId] at h
  | cons c t ih =>
    rw [searchVideoId] at h
    cases htf : tryFrom (c :: t) with
    | some w =>
      rw [htf] at h
      cases h
      exact tryFrom_shape _ _ htf
    | none =>
      rw [htf] at h
      exact ih h

/-- C9 witness: a real watch URL yields an 11-character id of the right
alphabet. -/
theorem c9_witness :
    extract_video_id_from_url "https://www.youtube.com/watch?v=nBpPe9UweWs&t=1s".data =
        some "nBpPe9UweWs".data ∧
      ("nBpPe9UweWs".data.length = 11 ∧ "nBpPe9UweWs".data.all isIdChar = true) :=
  ⟨by decide,
    c9_video_id_shape "https://www.youtube.com/watch?v=nBpPe9UweWs&t=1s".data
      "nBpPe9UweWs".data (by decide)⟩

/-! ## Claim C2 — completed analysis set short-circuits ingestion -/

/--
C2.  For a (non-empty) SourceKey for which both a `transcript` and an
`image_descriptions` analysis record already exist, `process_video`
replies `completed` ("Video already processed") without creating a new
status row and without starting the background pipeline.
-/
theorem c2_completed_short_circuit (legacy : List AnalysisRow) (statusRow : Option StatusRow)
    (url : List Char) (hurl : url ≠ [])
    (ht : ∃ r ∈ legacy, r.video_id = url ∧ r.model_type = "transcript".data)
    (hd : ∃ r ∈ legacy, r.video_id = url ∧ r.model_type = "image_descriptions".data) :
    process_video legacy statusRow url = (.alreadyProcessed, false, false) := by
  obtain ⟨r, hr, hvid, -⟩ := ht
  have hne : videoAnalysisGetByUrl legacy url ≠ [] := by
    unfold videoAnalysisGetByUrl
    rw [if_neg hurl]
    exact List.ne_nil_of_mem (List.mem_filter.mpr ⟨hr, by simp [hvid]⟩)
  unfold process_video
  rw [if_pos hne]

/-- C2 witness: a store with both records for the URL short-circuits. -/
theorem c2_witness :
    process_video
        [⟨"https://y/watch".data, "transcript".data, "[]".data⟩,
          ⟨"https://y/watch".data, "image_descriptions".data, "[]".data⟩]
        none "https://y/watch".data =
      (.alreadyProcessed, false, false) :=
  c2_completed_short_circuit _ _ _ (by decide)
    ⟨⟨"https://y/watch".data, "transcript".data, "[]".data⟩, by decide, by decide, by decide⟩
    ⟨⟨"https://y/watch".data, "image_descriptions".data, "[]".data⟩, by decide, by decide,
      by decide⟩

/-! ## Claim C1 — success policy -/

theorem stage1_comps_iff (env : PipeEnv) :
    (stage1 env).comps ≠ [] ↔ "transcript".data ∈ (stage1 env).writes := by
  unfold stage1
  split_ifs <;> decide

theorem stage1_writes_only_transcript (env : PipeEnv) :
    "image_descriptions".data ∉ (stage1 env).writes ∧
      "show_identification".data ∉ (stage1 env).writes := by
  unfold stage1
  split_ifs <;> decide

theorem stage2_comps_iff (env : PipeEnv) :
    (stage2 env).comps ≠ [] ↔
      ("image_descriptions".data ∈ (stage2 env).writes ∨
        "show_identification".data ∈ (stage2 env).writes) := by
  unfold stage2
  split
  · dsimp only
    split <;> split <;> (try split) <;> decide
  · decide

theorem stage2_writes_no_transcript (env : PipeEnv) :
    "transcript".data ∉ (stage2 env).writes := by
  unfold stage2
  split
  · dsimp only
    split <;> split <;> (try split) <;> decide
  · decide

/--
C1 (amended).  A run of `preprocess_youtube_url` succeeds (and hence is
reported `completed`) **iff** at least one of the `transcript` (native or
audio-fallback), `image_descriptions` (frame descriptions) or
`show_identification` analysis records was written.  Contrary to the
claim, a successful `show_identification` record alone completes a run
in which both transcript extraction and the frame-description sub-stage
produced nothing (see the counterexample); failures of the optional
identification/enrichment sub-stages still never flip a successful run
to `failed`, as the claim states.
-/
theorem c1_success_policy_amended (env : PipeEnv) :
    (preprocess_youtube_url env).success = true ↔
      ("transcript".data ∈ (preprocess_youtube_url env).writes ∨
        "image_descriptions".data ∈ (preprocess_youtube_url env).writes ∨
        "show_identification".data ∈ (preprocess_youtube_url env).writes) := by
  unfold preprocess_youtube_url
  cases hg : env.geminiInitOk with
  | false => simp
  | true =>
    simp only [Bool.not_true, Bool.false_eq_true, if_false]
    cases he : extract_video_id_from_url env.url with
    | none => simp
    | some vid =>
      dsimp only
      by_cases hc : (stage1 env).comps ++ (stage2 env).comps = []
      · rw [if_neg (not_not.mpr hc)]
        dsimp only
        obtain ⟨h1, h2⟩ := List.append_eq_nil.mp hc
        constructor
        · intro hfalse
          exact absurd hfalse (by simp)
        · intro hmem
          exfalso
          rcases hmem with h | h | h <;> rcases List.mem_append.mp h with h' | h'
          · exact (stage1_comps_iff env).mpr h' h1
          · exact stage2_writes_no_transcript env h'
          · exact (stage1_writes_only_transcript env).1 h'
          · exact (stage2_comps_iff env).mpr (Or.inl h') h2
          · exact (stage1_writes_only_transcript env).2 h'
          · exact (stage2_comps_iff env).mpr (Or.inr h') h2
      · rw [if_pos hc]
        dsimp only
        refine ⟨fun _ => ?_, fun _ => rfl⟩
        by_cases hs1 : (stage1 env).comps = []
        · have hs2 : (stage2 env).comps ≠ [] := by
            intro h2
            exact hc (by rw [hs1, h2]; rfl)
          rcases (stage2_comps_iff env).mp hs2 with h | h
          · exact Or.inr (Or.inl (List.mem_append.mpr (Or.inr h)))
          · exact Or.inr (Or.inr (List.mem_append.mpr (Or.inr h)))
        · exact Or.inl (List.mem_append.mpr (Or.inl ((stage1_comps_iff env).mp hs1)))

/-- Environment of the C1 counterexample: no captions, no audio,
screenshots extracted, the description Gemini call raises (caught), the
identification call returns plain prose. -/
def c1Env : PipeEnv :=
  { url := "youtu.be/abcdefghijk".data
    geminiInitOk := true
    transcriptOk := false
    audioOk := false
    audioRaises := false
    screenshotOk := true
    screenshotFiles := ["v_screenshot_0000.jpg".data]
    describeRaises := true
    describeBranch := .parseFailure
    identifyRaises := false
    identifyResponse := "It is Friends".data
    jloads := fun _ => none
    tmdb := ⟨false, none, none⟩ }

/-- C1 counterexample to the claim as stated: this run writes neither a
`transcript` nor an `image_descriptions` record — only
`show_identification` — yet it terminates successfully (`completed`),
refuting "completed only if transcript or frame_descriptions was
produced". -/
theorem c1_counterexample :
    (preprocess_youtube_url c1Env).success = true ∧
      "transcript".data ∉ (preprocess_youtube_url c1Env).writes ∧
      "image_descriptions".data ∉ (preprocess_youtube_url c1Env).writes := by
  decide

/-! ## Claim C8 — cleanup exactly on success, before the terminal write -/

theorem stage1_no_cleanup (env : PipeEnv) : PEvent.cleanup ∉ (stage1 env).events := by
  unfold stage1
  split_ifs <;> decide

theorem stage2_no_cleanup (env : PipeEnv) : PEvent.cleanup ∉ (stage2 env).events := by
  unfold stage2
  split
  · dsimp only
    unfold describeCallEvents identifyCallEvents
    split_ifs <;> decide
  · decide

theorem preprocess_cleanup_iff (env : PipeEnv) :
    PEvent.cleanup ∈ (preprocess_youtube_url env).events ↔
      (preprocess_youtube_url env).success = true := by
  unfold preprocess_youtube_url
  cases hg : env.geminiInitOk with
  | false => simp
  | true =>
    simp only [Bool.not_true, Bool.false_eq_true, if_false]
    cases he : extract_video_id_from_url env.url with
    | none => simp
    | some vid =>
      dsimp only
      by_cases hc : (stage1 env).comps ++ (stage2 env).comps = []
      · rw [if_neg (not_not.mpr hc)]
        dsimp only
        constructor
        · intro hmem
          exfalso
          rcases List.mem_append.mp hmem with h | h
          · rcases List.mem_append.mp h with h' | h'
            · exact absurd h' (by decide)
            · exact stage1_no_cleanup env h'
          · exact stage2_no_cleanup env h
        · intro hfalse
          exact absurd hfalse (by simp)
      · rw [if_pos hc]
        dsimp only
        simp

theorem pevent_cleanup_iff (e : PEvent) :
    peventToEvent e = Event.cleanupFiles ↔ e = .cleanup := by
  cases e <;> simp [peventToEvent]

/--
C8.  In every run of the background worker, the file-cleanup action
appears in the event trace **iff** the pipeline run succeeded, it occurs
strictly before the final terminal status write, and that final write is
`completed` with progress 100 on success and `failed` otherwise — so a
failed run's working files are left untouched.
-/
theorem c8_cleanup_exactly_on_success (env : PipeEnv) :
    (Event.cleanupFiles ∈ (process_video_background env).dropLast ↔
      (preprocess_youtube_url env).success = true) ∧
    (process_video_background env).getLast? =
      some (if (preprocess_youtube_url env).success then Event.upd .completed (some 100)
        else Event.upd .failed none) := by
  have hform : process_video_background env =
      ([Event.upd .processing (some 10), .upd .processing (some 20),
        .upd .processing (some 30)] ++ (preprocess_youtube_url env).events.map peventToEvent)
        ++ [if (preprocess_youtube_url env).success then Event.upd .completed (some 100)
          else Event.upd .failed none] := by
    simp [process_video_background]
  rw [hform, List.dropLast_concat, List.getLast?_concat]
  refine ⟨?_, rfl⟩
  rw [← preprocess_cleanup_iff env]
  simp [List.mem_map, pevent_cleanup_iff]

/-! ## Claim C3 — progress monotonicity -/

/-- Environment of the C3 run: captions found, screenshots extracted,
both Gemini vision calls answer, TMDB contributes nothing. -/
def c3Env : PipeEnv :=
  { url := "youtu.be/abcdefghijk".data
    geminiInitOk := true
    transcriptOk := true
    audioOk := false
    audioRaises := false
    screenshotOk := true
    screenshotFiles := ["v_screenshot_0000.jpg".data]
    describeRaises := false
    describeBranch := .splitParts []
    identifyRaises := false
    identifyResponse := "Friends".data
    jloads := fun _ => none
    tmdb := ⟨false, none, none⟩ }

/--
C3 (code bug).  On a fully successful run the status store receives the
progress sequence 10, 20, 30, 35, 40, 45, 55, 65, 75, 80, 85, **80**,
85, 88, 90, 92, 95, 100: the identification call re-issues the 80/85
checkpoints hard-coded in `_process_screenshots` after
`describe_screenshots` already reported 85, so the observable sequence
regresses (85 → 80) and is **not** non-decreasing, contradicting the
specified monotonicity.
-/
theorem c3_progress_regression :
    progressTrace (process_video_background c3Env) =
        [10, 20, 30, 35, 40, 45, 55, 65, 75, 80, 85, 80, 85, 88, 90, 92, 95, 100] ∧
      ¬ List.Chain' (· ≤ ·) (progressTrace (process_video_background c3Env)) := by
  have heq : progressTrace (process_video_background c3Env) =
      [10, 20, 30, 35, 40, 45, 55, 65, 75, 80, 85, 80, 85, 88, 90, 92, 95, 100] := by
    decide
  refine ⟨heq, fun h => ?_⟩
  rw [heq] at h
  simp [List.chain'_cons] at h

/-! ## Claim C10 — the normalized per-timestamp store -/

/-- The store invariant: at most one row per uniqueness key. -/
def AtMostOnePerKey (st : List TranscriptRow) : Prop :=
  ∀ v c : List Char, ∀ s : Int, (st.filter (keyP v c s)).length ≤ 1

theorem sameKey_iff_keyP {row q : TranscriptRow} {vid ct : List Char}
    (hv : row.video_id = vid) (hc : row.content_type = ct) :
    sameKey row q = true ↔ keyP vid ct row.timestamp_seconds q = true := by
  subst hv
  subst hc
  unfold sameKey keyP
  simp only [Bool.and_eq_true, decide_eq_true_eq]
  constructor
  · rintro ⟨⟨h1, h2⟩, h3⟩
    exact ⟨⟨h1.symm, h2.symm⟩, h3.symm⟩
  · rintro ⟨⟨h1, h2⟩, h3⟩
    exact ⟨⟨h1.symm, h2.symm⟩, h3.symm⟩

theorem keyP_row_self {row : TranscriptRow} {vid ct : List Char}
    (hv : row.video_id = vid) (hc : row.content_type = ct) (s : Int) :
    keyP vid ct s row = true ↔ row.timestamp_seconds = s := by
  subst hv
  subst hc
  simp [keyP]

theorem keyP_implies_pairP (v c : List Char) (s : Int) (r : TranscriptRow)
    (h : keyP v c s r = true) : pairP v c r = true := by
  simp only [keyP, Bool.and_eq_true, decide_eq_true_eq] at h
  simp [pairP, h.1.1, h.1.2]

theorem map_eq_self_of {α : Type} (f : α → α) :
    ∀ l : List α, (∀ x ∈ l, f x = x) → l.map f = l := by
  intro l h
  induction l with
  | nil => rfl
  | cons x xs ih =>
    simp only [List.map_cons, h x (by simp)]
    rw [ih fun y hy => h y (by simp [hy])]

/-- Filtering the replaced store on any uniqueness key of the rewritten
pair: when a conflicting row exists, the `DO UPDATE` branch leaves `[row]`
on `row`'s key and every other key untouched. -/
theorem replace_filter_key {vid ct : List Char} {row : TranscriptRow}
    (hv : row.video_id = vid) (hc : row.content_type = ct) (s : Int) :
    ∀ st : List TranscriptRow,
      (st.filter (keyP vid ct row.timestamp_seconds)).length ≤ 1 →
      st.any (sameKey row) = true →
      (st.map fun q => if sameKey row q then row else q).filter (keyP vid ct s) =
        if row.timestamp_seconds = s then [row] else st.filter (keyP vid ct s) := by
  intro st
  induction st with
  | nil => intro _ hany; simp at hany
  | cons q st' ih =>
    intro hlen hany
    by_cases hsq : sameKey row q = true
    · have hkq : keyP vid ct row.timestamp_seconds q = true := (sameKey_iff_keyP hv hc).mp hsq
      have hnil : st'.filter (keyP vid ct row.timestamp_seconds) = [] := by
        rw [List.filter_cons_of_pos hkq] at hlen
        simp only [List.length_cons] at hlen
        exact List.length_eq_zero.mp (by omega)
      have hnone : ∀ x ∈ st', sameKey row x = false := by
        intro x hx
        cases hb : sameKey row x with
        | false => rfl
        | true =>
          have hxk : keyP vid ct row.timestamp_seconds x = true :=
            (sameKey_iff_keyP hv hc).mp hb
          have : x ∈ st'.filter (keyP vid ct row.timestamp_seconds) :=
            List.mem_filter.mpr ⟨hx, hxk⟩
          rw [hnil] at this
          cases this
      have hmapid : (st'.map fun q => if sameKey row q then row else q) = st' :=
        map_eq_self_of _ st' fun x hx => by rw [hnone x hx]; simp
      by_cases hts : row.timestamp_seconds = s
      · have hrow : keyP vid ct s row = true := (keyP_row_self hv hc s).mpr hts
        rw [← hts]
        simp only [List.map_cons, hsq, if_true, hmapid, List.filter_cons, hts, hrow,
          if_pos]
        rw [List.filter_eq_nil_iff.mpr]
        intro a ha
        cases hb : keyP vid ct row.timestamp_seconds a with
        | false => rw [← hts]; simp [hb]
        | true => exact absurd ((sameKey_iff_keyP hv hc).mpr hb) (by simp [hnone a ha])
      · have hrow : keyP vid ct s row = false := by
          cases hb : keyP vid ct s row with
          | false => rfl
          | true => exact absurd ((keyP_row_self hv hc s).mp hb) hts
        have hqs : keyP vid ct s q = false := by
          cases hb : keyP vid ct s q with
          | false => rfl
          | true =>
            have h1 : q.timestamp_seconds = s := by
              have := (sameKey_iff_keyP hv hc).mp hsq
              simp only [keyP, Bool.and_eq_true, decide_eq_true_eq] at this hb
              exact hb.2
            have h2 : q.timestamp_seconds = row.timestamp_seconds := by
              have := (sameKey_iff_keyP hv hc).mp hsq
              simp only [keyP, Bool.and_eq_true, decide_eq_true_eq] at this
              exact this.2
            exact (hts (h2 ▸ h1)).elim
        simp [List.map_cons, hsq, hmapid, List.filter_cons, hrow, hqs, hts]
    · have hkq : keyP vid ct row.timestamp_seconds q = false := by
        cases hb : keyP vid ct row.timestamp_seconds q with
        | false => rfl
        | true => exact absurd ((sameKey_iff_keyP hv hc).mpr hb) hsq
      have hany' : st'.any (sameKey row) = true := by
        simpa [hsq] using hany
      have hlen' : (st'.filter (keyP vid ct row.timestamp_seconds)).length ≤ 1 := by
        rw [List.filter_cons_of_neg (by simp [hkq])] at hlen
        exact hlen
      have hrec := ih hlen' hany'
      by_cases hts : row.timestamp_seconds = s
      · have hqs : keyP vid ct s q = false := hts ▸ hkq
        simp [List.map_cons, hsq, List.filter_cons, hqs, hrec, hts]
      · by_cases hqs : keyP vid ct s q = true
        · simp [List.map_cons, hsq, List.filter_cons, hqs, hrec, hts]
        · simp only [Bool.not_eq_true] at hqs
          simp [List.map_cons, hsq, List.filter_cons, hqs, hrec, hts]

/-- `upsertTranscriptRow` on any uniqueness key of the rewritten pair:
`row`'s key ends up holding exactly `[row]`, every other key is
untouched. -/
theorem upsert_filter_key {vid ct : List Char} {row : TranscriptRow}
    (hv : row.video_id = vid) (hc : row.content_type = ct) (s : Int)
    (st : List TranscriptRow)
    (hlen : (st.filter (keyP vid ct row.timestamp_seconds)).length ≤ 1) :
    (upsertTranscriptRow st row).filter (keyP vid ct s) =
      if row.timestamp_seconds = s then [row] else st.filter (keyP vid ct s) := by
  unfold upsertTranscriptRow
  by_cases hany : st.any (sameKey row) = true
  · rw [if_pos hany]
    exact replace_filter_key hv hc s st hlen hany
  · rw [if_neg hany]
    have hnone : ∀ x ∈ st, sameKey row x = false := by
      intro x hx
      cases hb : sameKey row x with
      | false => rfl
      | true => exact absurd (List.any_eq_true.mpr ⟨x, hx, hb⟩) hany
    rw [List.filter_append]
    by_cases hts : row.timestamp_seconds = s
    · have hrow : keyP vid ct s row = true := (keyP_row_self hv hc s).mpr hts
      have hnil : st.filter (keyP vid ct s) = [] := by
        rw [List.filter_eq_nil_iff]
        intro x hx
        intro hxk
        have : sameKey row x = true := by
          refine (sameKey_iff_keyP hv hc).mpr ?_
          rw [hts]
          exact hxk
        rw [hnone x hx] at this
        cases this
      simp [hnil, List.filter_cons, hrow, hts]
    · have hrow : keyP vid ct s row = false := by
        cases hb : keyP vid ct s row with
        | false => rfl
        | true => exact absurd ((keyP_row_self hv hc s).mp hb) hts
      simp [List.filter_cons, hrow, hts]

theorem upsert_preserves_len {vid ct : List Char} {row : TranscriptRow}
    (hv : row.video_id = vid) (hc : row.content_type = ct) (st : List TranscriptRow)
    (hall : ∀ s' : Int, (st.filter (keyP vid ct s')).length ≤ 1) :
    ∀ s : Int, ((upsertTranscriptRow st row).filter (keyP vid ct s)).length ≤ 1 := by
  intro s
  rw [upsert_filter_key hv hc s st (hall _)]
  split
  · simp
  · exact hall s

/-- Effect of the per-item upsert loop on any uniqueness key of the
rewritten pair: among the items sharing a `seconds` value only the last
survives; keys no item touches keep the starting store's rows. -/
theorem fold_upsert_filter_key (vid ct : List Char) :
    ∀ (items : List TranscriptItem) (st : List TranscriptRow),
      (∀ s' : Int, (st.filter (keyP vid ct s')).length ≤ 1) →
      ∀ s : Int,
        ((items.foldl (fun acc it => upsertTranscriptRow acc (itemRow vid ct it)) st).filter
            (keyP vid ct s)) =
          (match (items.filter fun it => it.seconds.getD 0 = s).getLast? with
            | some it => [itemRow vid ct it]
            | none => st.filter (keyP vid ct s)) := by
  intro items
  induction items with
  | nil => intro st _ s; simp
  | cons it rest ih =>
    intro st h s
    rw [List.foldl_cons]
    have h' : ∀ s' : Int,
        ((upsertTranscriptRow st (itemRow vid ct it)).filter (keyP vid ct s')).length ≤ 1 :=
      @upsert_preserves_len vid ct (itemRow vid ct it) rfl rfl st h
    rw [ih (upsertTranscriptRow st (itemRow vid ct it)) h' s]
    by_cases hsec : it.seconds.getD 0 = s
    · rw [List.filter_cons_of_pos (by simp [hsec])]
      cases hl : (rest.filter fun it => it.seconds.getD 0 = s) with
      | nil =>
        simp only [hl, List.getLast?_nil, List.getLast?_singleton]
        rw [@upsert_filter_key vid ct (itemRow vid ct it) rfl rfl s st (h _)]
        rw [if_pos]
        exact hsec
      | cons x l =>
        simp only [hl, List.getLast?_cons_cons]
        cases hgl : (x :: l).getLast? with
        | none =>
          have hne := List.getLast?_isSome (l := x :: l)
          rw [hgl] at hne
          simp at hne
        | some y => rfl
    · rw [List.filter_cons_of_neg (by simp [hsec])]
      cases hl : (rest.filter fun it => it.seconds.getD 0 = s).getLast? with
      | some it' => simp [hl]
      | none =>
        simp only [hl]
        rw [@upsert_filter_key vid ct (itemRow vid ct it) rfl rfl s st (h _)]
        rw [if_neg]
        exact hsec

theorem replace_filter_nonpair {vid ct : List Char} {row : TranscriptRow}
    (hv : row.video_id = vid) (hc : row.content_type = ct) :
    ∀ st : List TranscriptRow,
      ((st.map fun q => if sameKey row q then row else q).filter fun r => !(pairP vid ct r)) =
        st.filter fun r => !(pairP vid ct r) := by
  intro st
  induction st with
  | nil => rfl
  | cons q st' ih =>
    by_cases hsq : sameKey row q = true
    · have hq_pair : pairP vid ct q = true :=
        keyP_implies_pairP vid ct row.timestamp_seconds q ((sameKey_iff_keyP hv hc).mp hsq)
      have hrow_pair : pairP vid ct row = true := by simp [pairP, hv, hc]
      simp [List.map_cons, hsq, List.filter_cons, hq_pair, hrow_pair, ih]
    · simp only [List.map_cons, hsq, if_false, Bool.false_eq_true, List.filter_cons, ih]

theorem upsert_filter_nonpair {vid ct : List Char} {row : TranscriptRow}
    (hv : row.video_id = vid) (hc : row.content_type = ct) (st : List TranscriptRow) :
    ((upsertTranscriptRow st row).filter fun r => !(pairP vid ct r)) =
      st.filter fun r => !(pairP vid ct r) := by
  unfold upsertTranscriptRow
  by_cases hany : st.any (sameKey row) = true
  · rw [if_pos hany]
    exact replace_filter_nonpair hv hc st
  · rw [if_neg hany, List.filter_append]
    have hrow_pair : pairP vid ct row = true := by simp [pairP, hv, hc]
    simp [List.filter_cons, hrow_pair]

theorem fold_upsert_filter_nonpair (vid ct : List Char) :
    ∀ (items : List TranscriptItem) (st : List TranscriptRow),
      ((items.foldl (fun acc it => upsertTranscriptRow acc (itemRow vid ct it)) st).filter
          fun r => !(pairP vid ct r)) =
        st.filter fun r => !(pairP vid ct r) := by
  intro items
  induction items with
  | nil => intro st; rfl
  | cons it rest ih =>
    intro st
    rw [List.foldl_cons, ih, @upsert_filter_nonpair vid ct (itemRow vid ct it) rfl rfl st]

theorem cleared_filter_key (norm : List TranscriptRow) (vid ct : List Char) (s : Int) :
    ((norm.filter fun r => !(pairP vid ct r)).filter (keyP vid ct s)) = [] := by
  rw [List.filter_eq_nil_iff]
  intro a ha hk
  have h1 : (!(pairP vid ct a)) = true := (List.mem_filter.mp ha).2
  rw [keyP_implies_pairP vid ct s a hk] at h1
  cases h1

/-- `create_from_json_array` on a uniqueness key of the written pair. -/
theorem create_from_json_array_key (norm : List TranscriptRow) (vid ct : List Char)
    (items : List TranscriptItem) (s : Int) :
    (create_from_json_array norm vid ct items).filter (keyP vid ct s) =
      (match (items.filter fun it => it.seconds.getD 0 = s).getLast? with
        | some it => [itemRow vid ct it]
        | none => []) := by
  unfold create_from_json_array
  dsimp only
  rw [fold_upsert_filter_key vid ct items (norm.filter fun r => !(pairP vid ct r))
    (fun s' => by rw [cleared_filter_key]; simp) s]
  cases hl : (items.filter fun it => it.seconds.getD 0 = s).getLast? with
  | some it' => rfl
  | none => exact cleared_filter_key norm vid ct s

/-- `create_from_json_array` leaves every row outside the written pair
untouched. -/
theorem create_from_json_array_nonpair (norm : List TranscriptRow) (vid ct : List Char)
    (items : List TranscriptItem) :
    ((create_from_json_array norm vid ct items).filter fun r => !(pairP vid ct r)) =
      norm.filter fun r => !(pairP vid ct r) := by
  unfold create_from_json_array
  rw [fold_upsert_filter_nonpair]
  rw [List.filter_filter]
  apply List.filter_congr
  intro a _
  exact Bool.and_self _

theorem filter_key_through_nonpair (l : List TranscriptRow) (v c vid ct : List Char)
    (s : Int) (hne : ¬(v = vid ∧ c = ct)) :
    l.filter (keyP v c s) = (l.filter fun r => !(pairP vid ct r)).filter (keyP v c s) := by
  rw [List.filter_filter]
  apply List.filter_congr
  intro a _
  cases hk : keyP v c s a with
  | false => simp
  | true =>
    have ha : a.video_id = v ∧ a.content_type = c := by
      simp only [keyP, Bool.and_eq_true, decide_eq_true_eq] at hk
      exact ⟨hk.1.1, hk.1.2⟩
    have hp : pairP vid ct a = false := by
      cases hp : pairP vid ct a with
      | false => rfl
      | true =>
        simp only [pairP, Bool.and_eq_true, decide_eq_true_eq] at hp
        exact (hne ⟨ha.1 ▸ hp.1, ha.2 ▸ hp.2⟩).elim
    simp [hp]

theorem create_from_json_array_amo (norm : List TranscriptRow) (vid ct : List Char)
    (items : List TranscriptItem) (hinv : AtMostOnePerKey norm) :
    AtMostOnePerKey (create_from_json_array norm vid ct items) := by
  intro v c s
  by_cases hpair : v = vid ∧ c = ct
  · obtain ⟨rfl, rfl⟩ := hpair
    rw [create_from_json_array_key]
    cases hl : (items.filter fun it => it.seconds.getD 0 = s).getLast? <;> simp [hl]
  · rw [filter_key_through_nonpair _ v c vid ct s hpair,
      create_from_json_array_nonpair,
      ← filter_key_through_nonpair _ v c vid ct s hpair]
    exact hinv v c s

/--
C10.  Every `VideoAnalysis.create` of a `transcript` or
`image_descriptions` record rewrites the normalized `video_transcript`
store for that `(video, content type)`: (i) rows of other pairs are
untouched and, as the pair's own keys hold exactly the new data, all
prior rows of the pair are gone; (ii) each uniqueness key of the pair
holds exactly the row of the **last** JSON item with that
`timestamp_seconds` (and nothing when no item has it); (iii) the
at-most-one-row-per-`(video, content type, timestamp_seconds)` invariant
is preserved, so after every write the store still satisfies it.
-/
theorem c10_normalized_store_rewrite (legacy : List AnalysisRow)
    (norm : List TranscriptRow) (vid mt output : List Char)
    (items : List TranscriptItem)
    (hmt : mt = "transcript".data ∨ mt = "image_descriptions".data)
    (hinv : AtMostOnePerKey norm) :
    let ct := if mt = "transcript".data then "transcript".data else "description".data
    let norm2 := (videoAnalysisCreate legacy norm vid mt output items).2
    ((norm2.filter fun r => !(pairP vid ct r)) = norm.filter fun r => !(pairP vid ct r)) ∧
      (∀ s : Int, norm2.filter (keyP vid ct s) =
        (match (items.filter fun it => it.seconds.getD 0 = s).getLast? with
          | some it => [itemRow vid ct it]
          | none => [])) ∧
      AtMostOnePerKey norm2 := by
  intro ct norm2
  have hnorm2 : norm2 = create_from_json_array norm vid ct items := by
    show (videoAnalysisCreate legacy norm vid mt output items).2 = _
    unfold videoAnalysisCreate
    rw [if_pos hmt]
  rw [hnorm2]
  exact ⟨create_from_json_array_nonpair norm vid ct items,
    fun s => create_from_json_array_key norm vid ct items s,
    create_from_json_array_amo norm vid ct items hinv⟩

/-- C10 witness: writing a transcript payload with two items at the same
second into an empty store leaves exactly one row for that key — the
later item's — and an empty remainder. -/
theorem c10_witness :
    ((videoAnalysisCreate [] [] "u".data "transcript".data "[]".data
          [⟨some "00:00".data, some 0, some "a".data, none⟩,
            ⟨some "00:00".data, some 0, some "b".data, none⟩]).2).filter
        (keyP "u".data "transcript".data 0) =
      [⟨"u".data, "transcript".data, 0, "00:00".data, "b".data⟩] := by
  have h := (c10_normalized_store_rewrite [] [] "u".data "transcript".data "[]".data
    [⟨some "00:00".data, some 0, some "a".data, none⟩,
      ⟨some "00:00".data, some 0, some "b".data, none⟩]
    (Or.inl rfl) (fun _ _ _ => by simp)).2.1 0
  have hct : (if "transcript".data = "transcript".data then "transcript".data
      else "description".data) = "transcript".data := by decide
  rw [hct] at h
  rw [h]
  decide

end Componion
